import Mathlib

/-!
Shallow embedding of the clawdbot repository pieces the claims are about:

* src/src/agents/claude-cli-runner.ts — `buildClaudeArgs`, `loadSessionMap`,
  `saveSessionMap` and the promise body of `runClaudeCliAgent` (spawn, abort
  and timeout flags, stdout/stderr capture, the close handler with its exit
  code check, output parsing, session-map persistence and usage accumulation).
* src/unnamed/part_000 — the OAuth sync script (refresh decision, refreshed
  expiry computation, oauth.json read-modify-write).

External runtime primitives (JSON.parse, fetch, fs, spawn) are modelled as
parameters or explicit environment data; JavaScript truthiness of optional
strings (undefined and the empty string are falsy) is made explicit.
-/

namespace Clawdbot

/-- JavaScript truthiness for an optional string: `undefined` (`none`) and
the empty string are falsy, everything else truthy. -/
def truthy (o : Option String) : Bool :=
  o.getD "" ≠ ""

/-- JavaScript `a || b` on optional strings: `b` when `a` is falsy. -/
def jsOrOpt (a b : Option String) : Option String :=
  if truthy a then a else b

/-- JavaScript `a || b` where `b` is a plain (string) default. -/
def jsOrStr (a : Option String) (b : String) : String :=
  if truthy a then a.getD "" else b

/-- First-match lookup in a JavaScript-object-style association list. -/
def lookupMap {α : Type} (m : List (String × α)) (k : String) : Option α :=
  match m with
  | [] => none
  | (k', v) :: rest => if k' = k then some v else lookupMap rest k

/-- JavaScript property assignment `obj[k] = v`: overwrite the existing key in
place (keeping key order) or append a fresh key at the end. -/
def setKey {α : Type} (m : List (String × α)) (k : String) (v : α) :
    List (String × α) :=
  match m with
  | [] => [(k, v)]
  | (k', v') :: rest =>
    if k' = k then (k, v) :: rest else (k', v') :: setKey rest k v

/-! ### Parameters of `runClaudeCliAgent`

`ClaudeCliRunnerParams` from claude-cli-runner.ts, restricted to the fields
the function body reads.  Optional TypeScript fields become `Option`; the
`config`, `sessionKey`, `onPartialReply` and `onAgentEvent` fields are never
read by the runner and are omitted. -/

structure ClaudeCliRunnerParams where
  sessionId : String
  workspaceDir : String
  prompt : String
  model : Option String
  timeoutMs : Nat
  runId : String
  systemPrompt : Option String
  appendSystemPrompt : Option String
  continueSession : Option Bool
  resumeSessionId : Option String
  allowedTools : Option (List String)
  disallowedTools : Option (List String)
  skipPermissions : Option Bool
  deriving DecidableEq, Repr

/-- JavaScript truthiness of `params.xs?.length`: the optional list is present
and non-empty. -/
def listTruthy (o : Option (List String)) : Bool :=
  (o.getD []) ≠ []

/-- Translation of `buildClaudeArgs` from claude-cli-runner.ts: the sequential `args.push`
calls written as list concatenation, with each `if (params.x)` translated to
the corresponding truthiness test. -/
def buildClaudeArgs (p : ClaudeCliRunnerParams) : List String :=
  ["-p", "--output-format", "json"]
  ++ (if truthy p.model then ["--model", p.model.getD ""] else [])
  ++ (if truthy p.systemPrompt then
        ["--system-prompt", p.systemPrompt.getD ""] else [])
  ++ (if truthy p.appendSystemPrompt then
        ["--append-system-prompt", p.appendSystemPrompt.getD ""] else [])
  ++ (if truthy p.resumeSessionId then
        ["--resume", p.resumeSessionId.getD ""]
      else if p.continueSession = some true then ["--continue"] else [])
  ++ (if listTruthy p.allowedTools then
        "--allowed-tools" :: p.allowedTools.getD [] else [])
  ++ (if listTruthy p.disallowedTools then
        "--disallowed-tools" :: p.disallowedTools.getD [] else [])
  ++ (if p.skipPermissions = some true then
        ["--dangerously-skip-permissions"] else [])
  ++ [p.prompt]

/-! ### The structured CLI result and the runner's return value

`ClaudeJsonResult` keeps the fields the runner reads (`type`, `result`,
`session_id`, `total_cost_usd`, `usage`, `modelUsage`); since the cast from
JSON is unchecked, every field is `Option`-typed.  The declared-but-unread
fields `subtype`, `is_error` and `duration_ms` are omitted.  Dollar costs are
only relayed, never computed with, so their carrier is `Int`. -/

structure ClaudeUsage where
  input_tokens : Option Int
  output_tokens : Option Int
  cache_read_input_tokens : Option Int
  cache_creation_input_tokens : Option Int
  deriving DecidableEq, Repr

structure ModelUsageEntry where
  inputTokens : Option Int
  outputTokens : Option Int
  cacheReadInputTokens : Option Int
  cacheCreationInputTokens : Option Int
  deriving DecidableEq, Repr

structure ClaudeJsonResult where
  type : Option String
  result : Option String
  session_id : Option String
  total_cost_usd : Option Int
  usage : Option ClaudeUsage
  modelUsage : Option (List (String × ModelUsageEntry))
  deriving DecidableEq, Repr

structure UsageOut where
  input : Int
  output : Int
  cacheRead : Int
  cacheWrite : Int
  deriving DecidableEq, Repr

structure RunMeta where
  durationMs : Nat
  sessionId : Option String
  model : Option String
  costUsd : Option Int
  usage : Option UsageOut
  aborted : Option Bool
  deriving DecidableEq, Repr

structure Payload where
  text : Option String
  mediaUrl : Option String
  mediaUrls : Option (List String)
  deriving DecidableEq, Repr

structure ClaudeCliRunResult where
  payloads : Option (List Payload)
  meta : RunMeta
  deriving DecidableEq, Repr

/-- How the promise returned by `runClaudeCliAgent` settles. -/
inductive RunOutcome where
  | resolved (r : ClaudeCliRunResult)
  | rejected (msg : String)
  deriving DecidableEq, Repr

/-! ### Output parsing (lines 226-247)

`JSON.parse` followed by the unchecked cast is abstracted as a parameter
`parse : String → Option ClaudeJsonResult`; `none` stands for any line on
which `JSON.parse` (or the `parsed.type` access) throws. -/

/-- JavaScript `String.prototype.trim`, as whitespace-dropping on the
character list (structural, so the kernel can evaluate it). -/
def jsTrim (s : String) : String :=
  String.mk
    (((s.data.dropWhile Char.isWhitespace).reverse.dropWhile
        Char.isWhitespace).reverse)

/-- Splitting a character list at every occurrence of a separator character;
an empty input yields one empty field, like JavaScript `split`. -/
def splitOnChar (c : Char) : List Char → List (List Char)
  | [] => [[]]
  | x :: xs =>
    match splitOnChar c xs with
    | [] => [[]]
    | h :: t => if x = c then [] :: h :: t else (x :: h) :: t

/-- JavaScript `s.split("\n")`. -/
def jsSplitNewline (s : String) : List String :=
  (splitOnChar '\n' s.data).map String.mk

/-- The `for (const line of lines.reverse())` loop: take the first line that
parses and whose `type` field is the string result, skipping (continue) both
unparseable lines and parsed lines of a different type. -/
def scanLines (parse : String → Option ClaudeJsonResult) :
    List String → Option ClaudeJsonResult
  | [] => none
  | l :: rest =>
    match parse l with
    | some r => if r.type = some "result" then some r else scanLines parse rest
    | none => scanLines parse rest

/-- Lines 226-242 of claude-cli-runner.ts: split the trimmed stdout on
newlines, scan the reversed line list, and fall back to parsing the whole
stdout when no result line was found. -/
def extractResult (parse : String → Option ClaudeJsonResult)
    (stdout : String) : Option ClaudeJsonResult :=
  match scanLines parse ((jsSplitNewline (jsTrim stdout)).reverse) with
  | some r => some r
  | none => parse stdout

/-- The extraction procedure as the claim words it: scanning the lines of the
captured stdout from last to first, take the first line that parses as JSON
with type field result; if no such line exists, parse the entire stdout. -/
def extractResultSpec (parse : String → Option ClaudeJsonResult)
    (stdout : String) : Option ClaudeJsonResult :=
  match (jsSplitNewline (jsTrim stdout)).reverse.findSome?
      (fun l =>
        match parse l with
        | some r => if r.type = some "result" then some r else none
        | none => none) with
  | some r => some r
  | none => parse stdout

/-! ### Usage accumulation (lines 254-271) -/

/-- The running totals and primary model of lines 254-258, seeded from the
result's `usage` block (`?? 0` on each field) and `params.model ?? "unknown"`. -/
def baseTotals (r : ClaudeJsonResult) : UsageOut :=
  ⟨(r.usage.bind (·.input_tokens)).getD 0,
   (r.usage.bind (·.output_tokens)).getD 0,
   (r.usage.bind (·.cache_read_input_tokens)).getD 0,
   (r.usage.bind (·.cache_creation_input_tokens)).getD 0⟩

/-- The `for (const modelData of Object.values(result.modelUsage))` loop of
lines 264-269, accumulating the four totals entry by entry. -/
def accumulateModelUsage (mu : List (String × ModelUsageEntry))
    (t : UsageOut) : UsageOut :=
  mu.foldl
    (fun acc e =>
      ⟨acc.input + (e.2.inputTokens.getD 0),
       acc.output + (e.2.outputTokens.getD 0),
       acc.cacheRead + (e.2.cacheReadInputTokens.getD 0),
       acc.cacheWrite + (e.2.cacheCreationInputTokens.getD 0)⟩)
    t

/-- Lines 254-271: totals plus primary model.  `if (result.modelUsage)` is
object truthiness (an empty object is truthy), and the inner
`models.length > 0` guard controls both the model override and the loop. -/
def computeTotals (r : ClaudeJsonResult) (paramsModel : Option String) :
    UsageOut × String :=
  let base := baseTotals r
  let primary := paramsModel.getD "unknown"
  match r.modelUsage with
  | some mu =>
    if mu.length > 0 then
      (accumulateModelUsage mu base, (mu.map (·.1)).headD primary)
    else
      (base, primary)
  | none => (base, primary)

/-! ### Session map persistence (lines 81-101) -/

/-- Outcome of `fs.readFile` on the session map path: the file may be
missing, unreadable, or present with some content. -/
inductive FsReadOutcome where
  | missing
  | unreadable
  | content (s : String)
  deriving DecidableEq, Repr

/-- Translation of `loadSessionMap`: read and `JSON.parse` the map file, with the
`try/catch` returning the empty map on a read error or a parse error.
`parseMap` abstracts `JSON.parse` into a string-to-string record; `none`
stands for a parse throw. -/
def loadSessionMap (parseMap : String → Option (List (String × String))) :
    FsReadOutcome → List (String × String)
  | .missing => []
  | .unreadable => []
  | .content s => (parseMap s).getD []

/-- One hexadecimal digit, for JSON unicode escapes of control characters. -/
def hexDigit (n : Nat) : Char :=
  if n < 10 then Char.ofNat (48 + n) else Char.ofNat (87 + n)

/-- JSON string escaping as performed by `JSON.stringify` on the characters
that can occur in a Lean-modelled string. -/
def jsonEscapeChar (c : Char) : String :=
  if c = '"' then "\\\""
  else if c = '\\' then "\\\\"
  else if c = '\n' then "\\n"
  else if c = '\t' then "\\t"
  else if c = '\r' then "\\r"
  else if c = Char.ofNat 8 then "\\b"
  else if c = Char.ofNat 12 then "\\f"
  else if c.toNat < 32 then
    "\\u00" ++ String.mk [hexDigit (c.toNat / 16), hexDigit (c.toNat % 16)]
  else String.singleton c

def jsonQuote (s : String) : String :=
  "\"" ++ String.join (s.data.map jsonEscapeChar) ++ "\""

/-- The content `saveSessionMap` writes:
`JSON.stringify(map, null, 2)` for a string-to-string record. -/
def serializeSessionMap : List (String × String) → String
  | [] => "\x7b\x7d"
  | e :: rest =>
    "\x7b\n"
    ++ String.intercalate ",\n"
        ((e :: rest).map (fun kv => "  " ++ jsonQuote kv.1 ++ ": " ++ jsonQuote kv.2))
    ++ "\n\x7d"

/-! ### The promise body of `runClaudeCliAgent` (lines 163-300)

The child's lifetime before the `close` event is a list of events: abort
firings, timeout firings, and stdout/stderr data chunks, folded over the
handler state (captured streams plus the `aborted` flag). -/

inductive PreCloseEvent where
  | abortFire
  | timeoutFire
  | stdoutData (s : String)
  | stderrData (s : String)
  deriving DecidableEq, Repr

structure ChildState where
  stdout : String
  stderr : String
  aborted : Bool
  deriving DecidableEq, Repr

/-- Initial handler state: streams empty; `aborted` starts true when an abort
signal was supplied already in the aborted state (lines 179-180 call the
abort handler synchronously before spawn returns control). -/
def initChildState (signalAlreadyAborted : Bool) : ChildState :=
  ⟨"", "", signalAlreadyAborted⟩

/-- Effect of one pre-close event on the handler state: the abort listener
and the timeout callback both set `aborted` and kill the child; the data
listeners append chunks. -/
def stepEvent (st : ChildState) : PreCloseEvent → ChildState
  | .abortFire => { st with aborted := true }
  | .timeoutFire => { st with aborted := true }
  | .stdoutData s => { st with stdout := st.stdout ++ s }
  | .stderrData s => { st with stderr := st.stderr ++ s }

def runEvents (signalAlreadyAborted : Bool) (evs : List PreCloseEvent) :
    ChildState :=
  evs.foldl stepEvent (initChildState signalAlreadyAborted)

/-- The `close` handler, lines 202-293: aborted check, exit-code check,
output parsing, session-map update and the final resolve.  Returns the
settlement of the promise together with the map written by `saveSessionMap`
(`none` when the file is not written). -/
def onClose (parse : String → Option ClaudeJsonResult)
    (p : ClaudeCliRunnerParams) (sessionMap : List (String × String))
    (st : ChildState) (code : Int) (durationMs : Nat) :
    RunOutcome × Option (List (String × String)) :=
  if st.aborted then
    (.resolved
      ⟨some [⟨some "[Claude CLI timed out or aborted]", none, none⟩],
       ⟨durationMs, none, none, none, none, some true⟩⟩, none)
  else if code ≠ 0 then
    (.rejected
      ("Claude CLI exited with code " ++ toString code ++ ": "
        ++ (if st.stderr ≠ "" then st.stderr else st.stdout)), none)
  else
    match extractResult parse st.stdout with
    | none => (.rejected "Failed to parse Claude CLI output", none)
    | some r =>
      let saved :=
        if truthy r.session_id then
          some (setKey sessionMap p.sessionId (r.session_id.getD ""))
        else none
      let tm := computeTotals r p.model
      (.resolved
        ⟨if truthy r.result then some [⟨r.result, none, none⟩] else none,
         ⟨durationMs, r.session_id, some tm.2, r.total_cost_usd,
          some tm.1, some false⟩⟩, saved)

/-- How the spawned child behaves: either the spawn itself errors (the
`error` listener rejects the promise), or the child runs through a list of
pre-close events and then closes with an exit code after `durationMs`. -/
inductive SpawnBehavior where
  | spawnError (msg : String)
  | completes (evs : List PreCloseEvent) (code : Int) (durationMs : Nat)
  deriving DecidableEq, Repr

/-- Environment of one invocation: the session map file, the
`CLAUDE_CLI_PATH` environment variable, whether the supplied abort signal
was already aborted at spawn time, and the child's behaviour. -/
structure RunEnv where
  sessionFile : FsReadOutcome
  claudePathEnv : Option String
  signalAlreadyAborted : Bool
  spawn : SpawnBehavior
  deriving DecidableEq, Repr

/-- Observable side effects of one invocation. -/
inductive SideEffect where
  | spawned (bin : String) (args : List String)
  | wroteSessionFile (m : List (String × String))
  deriving DecidableEq, Repr

structure RunResult where
  outcome : RunOutcome
  effects : List SideEffect
  deriving DecidableEq, Repr

/-- Translation of `runClaudeCliAgent`: load the session map, override `resumeSessionId`
with the mapped Claude session (JavaScript `||`), build the arguments, spawn
once, and settle through the `error` or `close` handler. -/
def runClaudeCliAgent (parse : String → Option ClaudeJsonResult)
    (parseMap : String → Option (List (String × String)))
    (p : ClaudeCliRunnerParams) (env : RunEnv) : RunResult :=
  let sessionMap := loadSessionMap parseMap env.sessionFile
  let existingClaudeSession := lookupMap sessionMap p.sessionId
  let runParams :=
    { p with resumeSessionId := jsOrOpt existingClaudeSession p.resumeSessionId }
  let args := buildClaudeArgs runParams
  let bin := jsOrStr env.claudePathEnv "/opt/homebrew/bin/claude"
  match env.spawn with
  | .spawnError msg => ⟨.rejected msg, [.spawned bin args]⟩
  | .completes evs code durationMs =>
    let st := runEvents env.signalAlreadyAborted evs
    let res := onClose parse p sessionMap st code durationMs
    ⟨res.1,
     [.spawned bin args]
       ++ (match res.2 with
           | some m => [.wroteSessionFile m]
           | none => [])⟩

/-- The arguments handed to `spawn` by an invocation (from its spawn
effect). -/
def spawnedArgs (r : RunResult) : List String :=
  (r.effects.filterMap
    (fun e =>
      match e with
      | .spawned _ args => some args
      | _ => none)).flatten

/-- The session-map writes performed by an invocation. -/
def writtenMaps (r : RunResult) : List (List (String × String)) :=
  r.effects.filterMap
    (fun e =>
      match e with
      | .wroteSessionFile m => some m
      | _ => none)

/-! ### The OAuth sync script (src/unnamed/part_000) -/

def EXPIRY_BUFFER_MS : Int := 5 * 60 * 1000

def REFRESH_THRESHOLD_MS : Int := 10 * 60 * 1000

/-- The `claudeAiOauth` block of the Claude CLI credential store. -/
structure ClaudeAiOauth where
  accessToken : String
  refreshToken : String
  expiresAt : Int
  deriving DecidableEq, Repr

/-- Body of a successful response from the token endpoint. -/
structure TokenResponse where
  access_token : String
  refresh_token : String
  expires_in : Int
  deriving DecidableEq, Repr

/-- The `access`/`refresh`/`expires` record stored under the anthropic key of
oauth.json. -/
structure OauthCreds where
  access : String
  refresh : String
  expires : Int
  deriving DecidableEq, Repr

/-- Return value of `refreshToken` (lines 60-64), given the successful
token-endpoint response body and the clock reading at return time (after the
network call, so in general later than the reading used for the expiry
check). -/
def refreshTokenResult (now : Int) (d : TokenResponse) : OauthCreds :=
  ⟨d.access_token, d.refresh_token,
   now + d.expires_in * 1000 - EXPIRY_BUFFER_MS⟩

/-- Line 84: `Date.now() > expiresAt - REFRESH_THRESHOLD_MS`. -/
def isExpired (now expiresAt : Int) : Bool :=
  now > expiresAt - REFRESH_THRESHOLD_MS

/-- The `finalCreds` of `main` (lines 84-95): refresh when expired or expiring
soon, otherwise relay the stored credentials unchanged. -/
def mainFinalCreds (now nowRefresh : Int) (c : ClaudeAiOauth)
    (resp : TokenResponse) : OauthCreds :=
  if isExpired now c.expiresAt then refreshTokenResult nowRefresh resp
  else ⟨c.accessToken, c.refreshToken, c.expiresAt⟩

/-- State of oauth.json before the sync script writes it (lines 102-109):
missing, present but unparseable, or parsed into top-level fields. -/
inductive OauthFileState (α : Type) where
  | missing
  | unparseable
  | parsed (fields : List (String × α))
  deriving DecidableEq, Repr

/-- The `existing` object after lines 102-109: the parsed fields, or the empty object
when the file is missing or JSON.parse throws. -/
def loadExistingOauth {α : Type} : OauthFileState α → List (String × α)
  | .parsed f => f
  | _ => []

/-- Lines 111-115: `existing.anthropic = finalCreds` followed by the write of
the whole object. -/
def syncOauthWrite {α : Type} (st : OauthFileState α) (anthropicVal : α) :
    List (String × α) :=
  setKey (loadExistingOauth st) "anthropic" anthropicVal

/-! ### File-write semantics

Modelled from the Node.js runtime: `fs.writeFile` / `fs.writeFileSync` (used
by `saveSessionMap` and by the sync script) do not write through a temporary
file and rename; they truncate the target and then write the data
sequentially.  The observable on-disk states of one write are therefore the
old content, and every prefix of the new content up to and including the
complete new content. -/
def writeFileStates (old new : String) : List String :=
  old
    :: ((List.range new.data.length).map (fun i => String.mk (new.data.take i))
        ++ [new])

/-- An atomic write in the claim's sense: at every moment the file holds
either the complete previous content or the complete new content. -/
def atomicWrite (old new : String) : Prop :=
  ∀ s ∈ writeFileStates old new, s = old ∨ s = new

instance (old new : String) : Decidable (atomicWrite old new) := by
  unfold atomicWrite
  infer_instance

/-! ### Observables and concrete fixtures -/

/-- The meta block of a resolved outcome. -/
def resolvedMeta : RunOutcome → Option RunMeta
  | .resolved r => some r.meta
  | .rejected _ => none

/-- The payloads of a resolved outcome. -/
def resolvedPayloads : RunOutcome → Option (List Payload)
  | .resolved r => r.payloads
  | .rejected _ => none

def isSpawnEffect : SideEffect → Bool
  | .spawned _ _ => true
  | _ => false

def sampleParams : ClaudeCliRunnerParams :=
  ⟨"s1", "workspace", "hello", none, 1000, "run-1", none, none, none, none,
   none, none, none⟩

def sampleResult : ClaudeJsonResult :=
  ⟨some "result", some "done", some "sess-9", some 3, none, none⟩

/-- A concrete stand-in for JSON.parse that recognises one result line. -/
def sampleParse : String → Option ClaudeJsonResult :=
  fun s => if s = "RLINE" then some sampleResult else none

/-- A concrete stand-in for JSON.parse on the session map file. -/
def sampleParseMap : String → Option (List (String × String)) :=
  fun s =>
    if s = "MAPOK" then some [("s1", "old-sess"), ("other", "keep")] else none

/-- A session map file whose entry for the sample session is the empty
string. -/
def parseMapEmptyEntry : String → Option (List (String × String)) :=
  fun s => if s = "MAPC4" then some [("s1", "")] else none

/-- Events that set the `aborted` flag. -/
def isAbortEvent : PreCloseEvent → Bool
  | .abortFire => true
  | .timeoutFire => true
  | _ => false

/-! ### Supporting lemmas -/

theorem lookupMap_setKey_self {α : Type} (m : List (String × α)) (k : String)
    (v : α) : lookupMap (setKey m k v) k = some v := by
  induction m with
  | nil => simp [setKey, lookupMap]
  | cons hd tl ih =>
    obtain ⟨k', v'⟩ := hd
    by_cases h : k' = k
    · simp [setKey, h, lookupMap]
    · simp [setKey, h, lookupMap, ih]

theorem lookupMap_setKey_ne {α : Type} (m : List (String × α)) (k k' : String)
    (v : α) (h : k' ≠ k) : lookupMap (setKey m k v) k' = lookupMap m k' := by
  have hne : ¬k = k' := fun hh => h hh.symm
  induction m with
  | nil => simp [setKey, lookupMap, hne]
  | cons hd tl ih =>
    obtain ⟨k₀, v₀⟩ := hd
    by_cases hk : k₀ = k
    · subst hk
      simp [setKey, lookupMap, hne]
    · by_cases hk' : k₀ = k'
      · simp [setKey, hk, lookupMap, hk', h]
      · simp [setKey, hk, lookupMap, hk', ih]

theorem foldl_stepEvent_aborted (evs : List PreCloseEvent) (st : ChildState) :
    (evs.foldl stepEvent st).aborted = (st.aborted || evs.any isAbortEvent) := by
  induction evs generalizing st with
  | nil => simp
  | cons e rest ih =>
    cases e <;>
      simp [List.foldl, stepEvent, isAbortEvent, ih, Bool.or_assoc]

theorem runEvents_aborted (b : Bool) (evs : List PreCloseEvent) :
    (runEvents b evs).aborted = (b || evs.any isAbortEvent) := by
  simp [runEvents, foldl_stepEvent_aborted, initChildState]

theorem scanLines_eq_findSome (parse : String → Option ClaudeJsonResult)
    (ls : List String) :
    scanLines parse ls =
      ls.findSome?
        (fun l =>
          match parse l with
          | some r => if r.type = some "result" then some r else none
          | none => none) := by
  induction ls with
  | nil => rfl
  | cons l rest ih =>
    simp only [scanLines, List.findSome?]
    cases hp : parse l with
    | none => simpa using ih
    | some r =>
      by_cases ht : r.type = some "result"
      · simp [ht]
      · simpa [ht] using ih

/-- The function `extractResult` computes exactly the procedure the specification words
describe. -/
theorem extractResult_eq_spec (parse : String → Option ClaudeJsonResult)
    (stdout : String) :
    extractResult parse stdout = extractResultSpec parse stdout := by
  simp [extractResult, extractResultSpec, scanLines_eq_findSome]

theorem accumulateModelUsage_spec (mu : List (String × ModelUsageEntry))
    (t : UsageOut) :
    accumulateModelUsage mu t =
      ⟨t.input + (mu.map (fun e => e.2.inputTokens.getD 0)).sum,
       t.output + (mu.map (fun e => e.2.outputTokens.getD 0)).sum,
       t.cacheRead + (mu.map (fun e => e.2.cacheReadInputTokens.getD 0)).sum,
       t.cacheWrite +
         (mu.map (fun e => e.2.cacheCreationInputTokens.getD 0)).sum⟩ := by
  induction mu generalizing t with
  | nil => simp [accumulateModelUsage]
  | cons e rest ih =>
    simp [accumulateModelUsage, List.foldl] at ih ⊢
    rw [ih]
    congr 1 <;> ring

/-! ### Claim theorems -/

/-- C1: whenever the abort signal fires or the timeout elapses before the
child closes (so the aborted flag is set when the close handler runs,
including a signal already aborted at spawn time), the promise resolves — it
does not reject — with meta.aborted = true and a single payload whose text is
the timed-out/aborted marker.  The exit code and any parse of stdout are
ignored: both are universally quantified and absent from the outcome. -/
theorem claudeCli_abort_or_timeout_resolves_aborted
    (parse : String → Option ClaudeJsonResult)
    (parseMap : String → Option (List (String × String)))
    (p : ClaudeCliRunnerParams) (env : RunEnv) (evs : List PreCloseEvent)
    (code : Int) (durationMs : Nat)
    (hspawn : env.spawn = .completes evs code durationMs)
    (habort : PreCloseEvent.abortFire ∈ evs ∨ PreCloseEvent.timeoutFire ∈ evs
      ∨ env.signalAlreadyAborted = true) :
    (runClaudeCliAgent parse parseMap p env).outcome =
      .resolved
        ⟨some [⟨some "[Claude CLI timed out or aborted]", none, none⟩],
         ⟨durationMs, none, none, none, none, some true⟩⟩ := by
  have hab : (runEvents env.signalAlreadyAborted evs).aborted = true := by
    rw [runEvents_aborted]
    rcases habort with h | h | h
    · have ha : evs.any isAbortEvent = true := List.any_eq_true.mpr ⟨_, h, rfl⟩
      simp [ha]
    · have ha : evs.any isAbortEvent = true := List.any_eq_true.mpr ⟨_, h, rfl⟩
      simp [ha]
    · simp [h]
  simp [runClaudeCliAgent, hspawn, onClose, hab]

theorem claudeCli_abort_or_timeout_resolves_aborted_witness :
    (runClaudeCliAgent sampleParse sampleParseMap sampleParams
      ⟨.missing, none, false,
       .completes [.timeoutFire, .stdoutData "RLINE"] 7 123⟩).outcome =
      .resolved
        ⟨some [⟨some "[Claude CLI timed out or aborted]", none, none⟩],
         ⟨123, none, none, none, none, some true⟩⟩ :=
  claudeCli_abort_or_timeout_resolves_aborted sampleParse sampleParseMap
    sampleParams _ _ 7 123 rfl (Or.inr (Or.inl (by decide)))

/-- C7: every invocation spawns the agent binary exactly once; no branch of
the model (spawn error, abort, timeout, non-zero exit, parse failure,
success) records a second spawn or retry. -/
theorem claudeCli_spawns_exactly_once
    (parse : String → Option ClaudeJsonResult)
    (parseMap : String → Option (List (String × String)))
    (p : ClaudeCliRunnerParams) (env : RunEnv) :
    (runClaudeCliAgent parse parseMap p env).effects.countP isSpawnEffect
      = 1 := by
  cases hs : env.spawn with
  | spawnError msg =>
    simp [runClaudeCliAgent, hs, isSpawnEffect]
  | completes evs code durationMs =>
    cases hsec :
        (onClose parse p (loadSessionMap parseMap env.sessionFile)
          (runEvents env.signalAlreadyAborted evs) code durationMs).2 with
    | none => simp [runClaudeCliAgent, hs, hsec, isSpawnEffect]
    | some m => simp [runClaudeCliAgent, hs, hsec, isSpawnEffect]

/-- C9: loadSessionMap is total over file-system outcomes — a missing file,
an unreadable file, and a file whose content fails to parse all yield the
empty map — and the invocation then behaves exactly as if the map file were
absent (it does not fail, and resumes only through params.resumeSessionId). -/
theorem loadSessionMap_total_on_failures
    (parse : String → Option ClaudeJsonResult)
    (parseMap : String → Option (List (String × String)))
    (p : ClaudeCliRunnerParams) (env : RunEnv)
    (hfail : env.sessionFile = .missing ∨ env.sessionFile = .unreadable
      ∨ (∃ s, env.sessionFile = .content s ∧ parseMap s = none)) :
    loadSessionMap parseMap env.sessionFile = []
    ∧ runClaudeCliAgent parse parseMap p env =
        runClaudeCliAgent parse parseMap p
          { env with sessionFile := .missing } := by
  have hload : loadSessionMap parseMap env.sessionFile = [] := by
    rcases hfail with h | h | ⟨s, h, hp⟩
    · simp [loadSessionMap, h]
    · simp [loadSessionMap, h]
    · simp [loadSessionMap, h, hp]
  refine ⟨hload, ?_⟩
  simp only [runClaudeCliAgent, hload]
  simp [loadSessionMap]

theorem loadSessionMap_total_on_failures_witness :
    loadSessionMap sampleParseMap (.content "garbage") = []
    ∧ runClaudeCliAgent sampleParse sampleParseMap sampleParams
        ⟨.content "garbage", none, false, .completes [] 5 9⟩ =
      runClaudeCliAgent sampleParse sampleParseMap sampleParams
        ⟨.missing, none, false, .completes [] 5 9⟩ :=
  loadSessionMap_total_on_failures sampleParse sampleParseMap sampleParams
    ⟨.content "garbage", none, false, .completes [] 5 9⟩
    (Or.inr (Or.inr ⟨"garbage", rfl, by decide⟩))

/-- C2: for every non-aborted close with exit code 0, the structured result
is obtained exactly by the spec's procedure — scan the captured stdout's
lines from last to first for the first line parsing as JSON with type field
result, falling back to parsing the entire stdout — and when that procedure
yields nothing the promise rejects with a parse error instead of resolving,
while when it yields a result the promise resolves with the payload and meta
built from it. -/
theorem claudeCli_output_parsing
    (parse : String → Option ClaudeJsonResult)
    (parseMap : String → Option (List (String × String)))
    (p : ClaudeCliRunnerParams) (env : RunEnv) (evs : List PreCloseEvent)
    (code : Int) (durationMs : Nat)
    (hspawn : env.spawn = .completes evs code durationMs)
    (hna : (runEvents env.signalAlreadyAborted evs).aborted = false)
    (hcode : code = 0) :
    extractResult parse (runEvents env.signalAlreadyAborted evs).stdout
      = extractResultSpec parse (runEvents env.signalAlreadyAborted evs).stdout
    ∧ (extractResultSpec parse
          (runEvents env.signalAlreadyAborted evs).stdout = none →
        (runClaudeCliAgent parse parseMap p env).outcome =
          .rejected "Failed to parse Claude CLI output")
    ∧ (∀ r, extractResultSpec parse
          (runEvents env.signalAlreadyAborted evs).stdout = some r →
        (runClaudeCliAgent parse parseMap p env).outcome =
          .resolved
            ⟨if truthy r.result then some [⟨r.result, none, none⟩] else none,
             ⟨durationMs, r.session_id, some (computeTotals r p.model).2,
              r.total_cost_usd, some (computeTotals r p.model).1,
              some false⟩⟩) := by
  subst hcode
  refine ⟨extractResult_eq_spec _ _, ?_, ?_⟩
  · intro h
    have h' : extractResult parse
        (runEvents env.signalAlreadyAborted evs).stdout = none := by
      rw [extractResult_eq_spec]; exact h
    simp [runClaudeCliAgent, hspawn, onClose, hna, h']
  · intro r hr
    have h' : extractResult parse
        (runEvents env.signalAlreadyAborted evs).stdout = some r := by
      rw [extractResult_eq_spec]; exact hr
    simp [runClaudeCliAgent, hspawn, onClose, hna, h']

theorem claudeCli_output_parsing_witness :
    (runClaudeCliAgent sampleParse sampleParseMap sampleParams
      ⟨.missing, none, false, .completes [.stdoutData "junk"] 0 44⟩).outcome =
      .rejected "Failed to parse Claude CLI output" :=
  (claudeCli_output_parsing sampleParse sampleParseMap sampleParams
    ⟨.missing, none, false, .completes [.stdoutData "junk"] 0 44⟩
    [.stdoutData "junk"] 0 44 rfl (by decide) rfl).2.1 (by decide)

/-- C3: for every successful run whose parsed result carries a truthy (non
missing, non-empty) session_id, the session map written afterwards maps
params.sessionId to that session_id and preserves every other entry of the
previously loaded map; when session_id is absent or empty no session-map
write happens at all. -/
theorem claudeCli_session_map_persistence
    (parse : String → Option ClaudeJsonResult)
    (parseMap : String → Option (List (String × String)))
    (p : ClaudeCliRunnerParams) (env : RunEnv) (evs : List PreCloseEvent)
    (code : Int) (durationMs : Nat) (r : ClaudeJsonResult)
    (hspawn : env.spawn = .completes evs code durationMs)
    (hna : (runEvents env.signalAlreadyAborted evs).aborted = false)
    (hcode : code = 0)
    (hr : extractResult parse (runEvents env.signalAlreadyAborted evs).stdout
      = some r) :
    (truthy r.session_id = true →
      writtenMaps (runClaudeCliAgent parse parseMap p env) =
        [setKey (loadSessionMap parseMap env.sessionFile) p.sessionId
          (r.session_id.getD "")]
      ∧ lookupMap
          (setKey (loadSessionMap parseMap env.sessionFile) p.sessionId
            (r.session_id.getD "")) p.sessionId = some (r.session_id.getD "")
      ∧ ∀ k, k ≠ p.sessionId →
          lookupMap
            (setKey (loadSessionMap parseMap env.sessionFile) p.sessionId
              (r.session_id.getD "")) k =
            lookupMap (loadSessionMap parseMap env.sessionFile) k)
    ∧ (truthy r.session_id = false →
        writtenMaps (runClaudeCliAgent parse parseMap p env) = []) := by
  subst hcode
  constructor
  · intro ht
    refine ⟨?_, lookupMap_setKey_self _ _ _,
      fun k hk => lookupMap_setKey_ne _ _ _ _ hk⟩
    simp [runClaudeCliAgent, hspawn, onClose, hna, hr, ht, writtenMaps]
  · intro ht
    simp [runClaudeCliAgent, hspawn, onClose, hna, hr, ht, writtenMaps]

theorem claudeCli_session_map_persistence_witness :
    lookupMap
      (setKey (loadSessionMap sampleParseMap (.content "MAPOK")) "s1"
        ((sampleResult.session_id).getD "")) "other" =
      lookupMap (loadSessionMap sampleParseMap (.content "MAPOK")) "other" :=
  ((claudeCli_session_map_persistence sampleParse sampleParseMap sampleParams
      ⟨.content "MAPOK", none, false, .completes [.stdoutData "RLINE"] 0 55⟩
      [.stdoutData "RLINE"] 0 55 sampleResult rfl (by decide) rfl
      (by decide)).1 (by decide)).2.2 "other" (by decide)

/-- C10: for every successful run, each returned usage total equals the
corresponding field of the result's usage block (0 when the block or the
field is absent) plus the sum of the corresponding per-model field over all
modelUsage entries, and meta.model is the first key of modelUsage when
non-empty, otherwise params.model, otherwise the string unknown. -/
theorem claudeCli_usage_totals
    (parse : String → Option ClaudeJsonResult)
    (parseMap : String → Option (List (String × String)))
    (p : ClaudeCliRunnerParams) (env : RunEnv) (evs : List PreCloseEvent)
    (code : Int) (durationMs : Nat) (r : ClaudeJsonResult)
    (hspawn : env.spawn = .completes evs code durationMs)
    (hna : (runEvents env.signalAlreadyAborted evs).aborted = false)
    (hcode : code = 0)
    (hr : extractResult parse (runEvents env.signalAlreadyAborted evs).stdout
      = some r) :
    ((resolvedMeta (runClaudeCliAgent parse parseMap p env).outcome).bind
        (·.usage)) =
      some
        ⟨(r.usage.bind (·.input_tokens)).getD 0
           + ((r.modelUsage.getD []).map
               (fun e => e.2.inputTokens.getD 0)).sum,
         (r.usage.bind (·.output_tokens)).getD 0
           + ((r.modelUsage.getD []).map
               (fun e => e.2.outputTokens.getD 0)).sum,
         (r.usage.bind (·.cache_read_input_tokens)).getD 0
           + ((r.modelUsage.getD []).map
               (fun e => e.2.cacheReadInputTokens.getD 0)).sum,
         (r.usage.bind (·.cache_creation_input_tokens)).getD 0
           + ((r.modelUsage.getD []).map
               (fun e => e.2.cacheCreationInputTokens.getD 0)).sum⟩
    ∧ ((resolvedMeta (runClaudeCliAgent parse parseMap p env).outcome).bind
        (·.model)) =
      some
        (match r.modelUsage.getD [] with
         | [] => p.model.getD "unknown"
         | e :: _ => e.1) := by
  subst hcode
  have houtcome :
      resolvedMeta (runClaudeCliAgent parse parseMap p env).outcome =
        some
          ⟨durationMs, r.session_id, some (computeTotals r p.model).2,
           r.total_cost_usd, some (computeTotals r p.model).1, some false⟩ := by
    simp [runClaudeCliAgent, hspawn, onClose, hna, hr, resolvedMeta]
  rw [houtcome]
  have htotals :
      computeTotals r p.model =
        (⟨(r.usage.bind (·.input_tokens)).getD 0
            + ((r.modelUsage.getD []).map
                (fun e => e.2.inputTokens.getD 0)).sum,
          (r.usage.bind (·.output_tokens)).getD 0
            + ((r.modelUsage.getD []).map
                (fun e => e.2.outputTokens.getD 0)).sum,
          (r.usage.bind (·.cache_read_input_tokens)).getD 0
            + ((r.modelUsage.getD []).map
                (fun e => e.2.cacheReadInputTokens.getD 0)).sum,
          (r.usage.bind (·.cache_creation_input_tokens)).getD 0
            + ((r.modelUsage.getD []).map
                (fun e => e.2.cacheCreationInputTokens.getD 0)).sum⟩,
         (match r.modelUsage.getD [] with
          | [] => p.model.getD "unknown"
          | e :: _ => e.1)) := by
    cases hm : r.modelUsage with
    | none => simp [computeTotals, hm, baseTotals]
    | some mu =>
      cases mu with
      | nil => simp [computeTotals, hm, baseTotals]
      | cons e rest =>
        simp [computeTotals, hm, baseTotals, accumulateModelUsage_spec]
  rw [htotals]
  exact ⟨rfl, rfl⟩

theorem claudeCli_usage_totals_witness :
    ((resolvedMeta (runClaudeCliAgent sampleParse sampleParseMap sampleParams
        ⟨.missing, none, false,
         .completes [.stdoutData "RLINE"] 0 55⟩).outcome).bind (·.usage)) =
      some ⟨0, 0, 0, 0⟩ :=
  (claudeCli_usage_totals sampleParse sampleParseMap sampleParams
    ⟨.missing, none, false, .completes [.stdoutData "RLINE"] 0 55⟩
    [.stdoutData "RLINE"] 0 55 sampleResult rfl (by decide) rfl (by decide)).1

/-- C6: the sync script refreshes the token if and only if the current time
exceeds expiresAt minus the ten-minute refresh threshold; otherwise the
stored accessToken, refreshToken and expiresAt are relayed unchanged; when
refreshed, the stored expiry is the clock reading at the refresh response
plus expires_in seconds in milliseconds minus the five-minute buffer.  In
both cases the final credentials end up under the anthropic key of
oauth.json. -/
theorem oauth_sync_refresh_decision (now nowRefresh : Int)
    (c : ClaudeAiOauth) (resp : TokenResponse)
    (st : OauthFileState OauthCreds) :
    (now > c.expiresAt - 10 * 60 * 1000 →
      mainFinalCreds now nowRefresh c resp =
        ⟨resp.access_token, resp.refresh_token,
         nowRefresh + resp.expires_in * 1000 - 5 * 60 * 1000⟩)
    ∧ (¬ now > c.expiresAt - 10 * 60 * 1000 →
        mainFinalCreds now nowRefresh c resp =
          ⟨c.accessToken, c.refreshToken, c.expiresAt⟩)
    ∧ lookupMap
        (syncOauthWrite st (mainFinalCreds now nowRefresh c resp))
        "anthropic" = some (mainFinalCreds now nowRefresh c resp) := by
  refine ⟨?_, ?_, ?_⟩
  · intro h
    have hc : isExpired now c.expiresAt = true := by
      simp only [isExpired, REFRESH_THRESHOLD_MS, decide_eq_true_eq]
      omega
    simp [mainFinalCreds, hc, refreshTokenResult, EXPIRY_BUFFER_MS]
  · intro h
    have hc : isExpired now c.expiresAt = false := by
      simp only [isExpired, REFRESH_THRESHOLD_MS, decide_eq_false_iff_not]
      omega
    simp [mainFinalCreds, hc]
  · simp [syncOauthWrite, lookupMap_setKey_self]

theorem oauth_sync_refresh_decision_witness :
    mainFinalCreds 1000000 2000000 ⟨"acc", "ref", 500000⟩ ⟨"na", "nr", 3600⟩ =
      ⟨"na", "nr", 2000000 + 3600 * 1000 - 5 * 60 * 1000⟩ :=
  (oauth_sync_refresh_decision 1000000 2000000 ⟨"acc", "ref", 500000⟩
    ⟨"na", "nr", 3600⟩ .missing).1 (by decide)

/-- C8: the sync script's write of oauth.json replaces exactly the anthropic
key: every other top-level key keeps its value, and a missing or unparseable
existing file is treated as the empty object (the write then holds only the
anthropic key) instead of failing. -/
theorem oauth_sync_preserves_other_keys {α : Type} (st : OauthFileState α)
    (v : α) :
    lookupMap (syncOauthWrite st v) "anthropic" = some v
    ∧ (∀ k, k ≠ "anthropic" →
        lookupMap (syncOauthWrite st v) k =
          lookupMap (loadExistingOauth st) k)
    ∧ ((st = .missing ∨ st = .unparseable) →
        syncOauthWrite st v = [("anthropic", v)]) := by
  refine ⟨?_, ?_, ?_⟩
  · simp [syncOauthWrite, lookupMap_setKey_self]
  · intro k hk
    simp [syncOauthWrite, lookupMap_setKey_ne _ _ _ _ hk]
  · rintro (h | h) <;> subst h <;>
      simp [syncOauthWrite, loadExistingOauth, setKey]

theorem oauth_sync_preserves_other_keys_witness :
    lookupMap (syncOauthWrite (.parsed [("other", 5)]) 7) "other" =
      lookupMap (loadExistingOauth
        (OauthFileState.parsed [("other", 5)])) "other" :=
  (oauth_sync_preserves_other_keys (.parsed [("other", 5)]) 7).2.1 "other"
    (by decide)

/-- C5 counterexample: the session-map write is a plain `fs.writeFile`
(truncate, then write), so writing the one-entry map over a previous file
holding the empty object passes through the truncated (empty) on-disk state,
which is neither the complete previous content nor the complete new content —
the write is not atomic in the claim's sense. -/
theorem session_map_write_not_atomic :
    ¬ atomicWrite "\x7b\x7d" (serializeSessionMap [("a", "b")]) := by
  decide

/-- C5 amended: each persistent write replaces the file with the complete
new serialization — the final on-disk state after the write is exactly the
full new content — but the write is not atomic: while it is in progress the
file may hold the old content or any prefix (including the empty truncated
state) of the new content. -/
theorem persistent_write_complete_but_not_atomic (old : String)
    (m : List (String × String)) (s : String)
    (hs : s ∈ writeFileStates old (serializeSessionMap m)) :
    (writeFileStates old (serializeSessionMap m)).getLast? =
      some (serializeSessionMap m)
    ∧ (s = old ∨ s = serializeSessionMap m
       ∨ ∃ i, s = String.mk ((serializeSessionMap m).data.take i)) := by
  constructor
  · show (_ :: (_ ++ [_])).getLast? = _
    rw [← List.cons_append, List.getLast?_concat]
  · simp only [writeFileStates, List.mem_cons, List.mem_append,
      List.mem_map, List.mem_singleton] at hs
    rcases hs with h | ⟨i, _, h⟩ | h | h
    · exact Or.inl h
    · exact Or.inr (Or.inr ⟨i, h.symm⟩)
    · exact Or.inr (Or.inl h)
    · simp at h

theorem persistent_write_complete_but_not_atomic_witness :
    (writeFileStates "x" (serializeSessionMap [("a", "b")])).getLast? =
      some (serializeSessionMap [("a", "b")])
    ∧ ("x" = "x" ∨ "x" = serializeSessionMap [("a", "b")]
       ∨ ∃ i, "x" =
          String.mk ((serializeSessionMap [("a", "b")]).data.take i)) :=
  persistent_write_complete_but_not_atomic "x" [("a", "b")] "x"
    (by simp [writeFileStates])

/-- C4 counterexample: the loaded session map can hold an entry for
params.sessionId whose value is the empty string.  The claim then demands a
--resume flag, but JavaScript || treats the empty entry as absent and — with
no resumeSessionId and no continueSession — the spawned arguments contain no
--resume at all. -/
theorem claudeCli_resume_empty_entry_counterexample :
    lookupMap (loadSessionMap parseMapEmptyEntry (.content "MAPC4")) "s1" =
      some ""
    ∧ "--resume" ∉ spawnedArgs (runClaudeCliAgent sampleParse
        parseMapEmptyEntry sampleParams
        ⟨.content "MAPC4", none, false, .completes [] 0 0⟩) :=
  ⟨by decide, by decide⟩

theorem mem_ite_nil {α : Type} (c : Prop) [Decidable c] (l : List α) (a : α) :
    a ∈ (if c then l else []) ↔ c ∧ a ∈ l := by
  by_cases h : c
  · simp [h]
  · simp [h]

/-- C4 amended: let the effective resume id be the session-map entry for
params.sessionId when that entry is non-empty (it takes precedence),
otherwise params.resumeSessionId.  Provided none of the other argument
payloads is literally the string --resume or --continue: the spawned
arguments are built from the effective resume id; they contain --resume
followed by that id exactly when it is non-empty, and --continue exactly
when it is empty or absent and continueSession is true; --resume and
--continue never both appear. -/
theorem claudeCli_resume_continue_flags
    (parse : String → Option ClaudeJsonResult)
    (parseMap : String → Option (List (String × String)))
    (p : ClaudeCliRunnerParams) (env : RunEnv) (eff : Option String)
    (heff : eff = jsOrOpt
      (lookupMap (loadSessionMap parseMap env.sessionFile) p.sessionId)
      p.resumeSessionId)
    (hclean : ∀ s ∈ [p.prompt, p.model.getD "", p.systemPrompt.getD "",
        p.appendSystemPrompt.getD "", eff.getD ""]
        ++ p.allowedTools.getD [] ++ p.disallowedTools.getD [],
        s ≠ "--resume" ∧ s ≠ "--continue") :
    spawnedArgs (runClaudeCliAgent parse parseMap p env) =
      buildClaudeArgs { p with resumeSessionId := eff }
    ∧ (truthy (lookupMap (loadSessionMap parseMap env.sessionFile)
          p.sessionId) = true →
        eff = lookupMap (loadSessionMap parseMap env.sessionFile) p.sessionId)
    ∧ (truthy eff = true →
        (∃ l r, buildClaudeArgs { p with resumeSessionId := eff } =
            l ++ ["--resume", eff.getD ""] ++ r)
        ∧ "--continue" ∉ buildClaudeArgs { p with resumeSessionId := eff })
    ∧ (truthy eff = false →
        "--resume" ∉ buildClaudeArgs { p with resumeSessionId := eff }
        ∧ ("--continue" ∈ buildClaudeArgs { p with resumeSessionId := eff }
            ↔ p.continueSession = some true)) := by
  have hprompt := hclean p.prompt (by simp)
  have hmodel := hclean (p.model.getD "") (by simp)
  have hsys := hclean (p.systemPrompt.getD "") (by simp)
  have happ := hclean (p.appendSystemPrompt.getD "") (by simp)
  have heffv := hclean (eff.getD "") (by simp)
  have hal : ∀ t ∈ p.allowedTools.getD [], t ≠ "--resume" ∧ t ≠ "--continue" :=
    fun t ht => hclean t (by simp [ht])
  have hdl : ∀ t ∈ p.disallowedTools.getD [],
      t ≠ "--resume" ∧ t ≠ "--continue" :=
    fun t ht => hclean t (by simp [ht])
  have hpromptC : ¬("--continue" = p.prompt) := fun hh => hprompt.2 hh.symm
  have hmodelC : ¬("--continue" = p.model.getD "") := fun hh => hmodel.2 hh.symm
  have hsysC : ¬("--continue" = p.systemPrompt.getD "") :=
    fun hh => hsys.2 hh.symm
  have happC : ¬("--continue" = p.appendSystemPrompt.getD "") :=
    fun hh => happ.2 hh.symm
  have heffC : ¬("--continue" = eff.getD "") := fun hh => heffv.2 hh.symm
  have halC : "--continue" ∉ p.allowedTools.getD [] :=
    fun ht => (hal _ ht).2 rfl
  have hdlC : "--continue" ∉ p.disallowedTools.getD [] :=
    fun ht => (hdl _ ht).2 rfl
  have hpromptR : ¬("--resume" = p.prompt) := fun hh => hprompt.1 hh.symm
  have hmodelR : ¬("--resume" = p.model.getD "") := fun hh => hmodel.1 hh.symm
  have hsysR : ¬("--resume" = p.systemPrompt.getD "") :=
    fun hh => hsys.1 hh.symm
  have happR : ¬("--resume" = p.appendSystemPrompt.getD "") :=
    fun hh => happ.1 hh.symm
  have halR : "--resume" ∉ p.allowedTools.getD [] := fun ht => (hal _ ht).1 rfl
  have hdlR : "--resume" ∉ p.disallowedTools.getD [] :=
    fun ht => (hdl _ ht).1 rfl
  refine ⟨?_, ?_, ?_, ?_⟩
  · cases hs : env.spawn with
    | spawnError msg => simp [runClaudeCliAgent, hs, spawnedArgs, heff]
    | completes evs code durationMs =>
      cases hsec :
          (onClose parse p (loadSessionMap parseMap env.sessionFile)
            (runEvents env.signalAlreadyAborted evs) code durationMs).2 with
      | none => simp [runClaudeCliAgent, hs, hsec, spawnedArgs, heff]
      | some m => simp [runClaudeCliAgent, hs, hsec, spawnedArgs, heff]
  · intro h
    rw [heff]
    simp [jsOrOpt, h]
  · intro ht
    constructor
    · refine ⟨["-p", "--output-format", "json"]
        ++ (if truthy p.model then ["--model", p.model.getD ""] else [])
        ++ (if truthy p.systemPrompt then
              ["--system-prompt", p.systemPrompt.getD ""] else [])
        ++ (if truthy p.appendSystemPrompt then
              ["--append-system-prompt", p.appendSystemPrompt.getD ""]
            else []),
        (if listTruthy p.allowedTools then
            "--allowed-tools" :: p.allowedTools.getD [] else [])
        ++ (if listTruthy p.disallowedTools then
              "--disallowed-tools" :: p.disallowedTools.getD [] else [])
        ++ (if p.skipPermissions = some true then
              ["--dangerously-skip-permissions"] else [])
        ++ [p.prompt], ?_⟩
      simp [buildClaudeArgs, ht, List.append_assoc]
    · intro hmem
      simp only [buildClaudeArgs, ht, List.mem_append, List.mem_cons,
        List.not_mem_nil, mem_ite_nil] at hmem
      simp [hpromptC, hmodelC, hsysC, happC, heffC, halC, hdlC] at hmem
  · intro ht
    constructor
    · intro hmem
      simp only [buildClaudeArgs, ht, List.mem_append, List.mem_cons,
        List.not_mem_nil, mem_ite_nil] at hmem
      simp [hpromptR, hmodelR, hsysR, happR, halR, hdlR] at hmem
    · constructor
      · intro hmem
        simp only [buildClaudeArgs, ht, List.mem_append, List.mem_cons,
          List.not_mem_nil, mem_ite_nil] at hmem
        simp [hpromptC, hmodelC, hsysC, happC, halC, hdlC] at hmem
        exact hmem
      · intro hc
        simp [buildClaudeArgs, ht, hc]

theorem claudeCli_resume_continue_flags_witness :
    spawnedArgs (runClaudeCliAgent sampleParse sampleParseMap sampleParams
      ⟨.content "MAPOK", none, false, .completes [] 0 0⟩) =
      buildClaudeArgs
        { sampleParams with resumeSessionId := some "old-sess" } :=
  (claudeCli_resume_continue_flags sampleParse sampleParseMap sampleParams
    ⟨.content "MAPOK", none, false, .completes [] 0 0⟩ (some "old-sess")
    (by decide) (by decide)).1

end Clawdbot
